import Mathlib

/-!
Verification development for the recruitment-automation interview engine.

The definitions below are a shallow embedding of the Python sources:
  src/domains/recruitment/conversation.py        (turn engine)
  src/domains/handler.py                         (session orchestrator)
  src/domains/recruitment/summary.py             (summarization reducer)
  src/domains/recruitment/tools.py               (summarize_interview_history)
  src/domains/recruitment/master_agent.py        (run_evaluation_tools caller)
  src/domains/recruitment/new_scenario_manager.py (staged conversation flow)
  src/domains/recruitment/prompts.py, evaluation.py (pydantic data models)

Conventions of the embedding:
  - Python dicts with a fixed key set become structures; dynamic dicts
    (the per-question evaluation map, analysis payloads) become ordered
    association lists with dictSet / dictGet mirroring dict assignment
    and lookup.
  - LLM calls are oracles: functions supplied as parameters returning
    Except Unit for fallible calls; a .error result models the Python
    call raising an exception.
  - try/except blocks become explicit Except plumbing: a caught
    exception takes the except-branch value.
  - String literals avoid apostrophes; where the Python source text has
    one (for example in canned interviewer messages) it is elided, which
    no claim depends on.
-/

namespace Recruitment

/-- A question of a traditional scenario: the dict with keys id, question. -/
structure Question where
  id : String
  question : String
deriving DecidableEq, Repr

/-- A traditional scenario as used by conversation.py: id, title,
description and an ordered list of questions. -/
structure Scenario where
  id : String
  title : String
  description : String
  questions : List Question
deriving DecidableEq, Repr

/-- Message roles: SystemMessage / AIMessage / HumanMessage. -/
inductive Role where
  | system
  | ai
  | human
deriving DecidableEq, Repr

/-- One message of the conversation history. -/
structure Message where
  role : Role
  content : String
deriving DecidableEq, Repr

/-- A JSON-style scalar stored in an analysis payload dict. -/
inductive AVal where
  | int (n : Int)
  | str (t : String)
deriving DecidableEq, Repr

/-- Ordered-dict assignment: replace in place when the key exists,
append otherwise (Python dict semantics). -/
def dictSet {α : Type} (d : List (String × α)) (k : String) (v : α) : List (String × α) :=
  if d.any (fun p => p.1 = k) then
    d.map (fun p => if p.1 = k then (k, v) else p)
  else d ++ [(k, v)]

/-- Dict lookup returning the value of the first matching key. -/
def dictGet {α : Type} (d : List (String × α)) (k : String) : Option α :=
  (d.find? (fun p => p.1 = k)).map (fun p => p.2)

/-- prompts.py ClarificationResponse: the clarification-check oracle
output. -/
structure ClarificationResponse where
  needs_clarification : Bool
  clarification_question : String
  reasoning : String
deriving DecidableEq, Repr

/-- prompts.py ResponseAnalysis: the per-response analysis oracle output.
It carries exactly five score axes plus the reasoning text. -/
structure ResponseAnalysis where
  relevance_score : Int
  completeness_score : Int
  clarity_score : Int
  technical_accuracy_score : Int
  professional_tone_score : Int
  reasoning : String
deriving DecidableEq, Repr

/-- analysis_result.dict(): the payload stored on a successful analysis. -/
def ResponseAnalysis.dict (a : ResponseAnalysis) : List (String × AVal) :=
  [("relevance_score", AVal.int a.relevance_score),
   ("completeness_score", AVal.int a.completeness_score),
   ("clarity_score", AVal.int a.clarity_score),
   ("technical_accuracy_score", AVal.int a.technical_accuracy_score),
   ("professional_tone_score", AVal.int a.professional_tone_score),
   ("reasoning", AVal.str a.reasoning)]

/-- conversation.py lines 164-171: the literal default analysis dict
written when the analysis oracle fails. It has five score keys. -/
def fallback_analysis_dict : List (String × AVal) :=
  [("relevance_score", AVal.int 5),
   ("completeness_score", AVal.int 5),
   ("clarity_score", AVal.int 5),
   ("technical_accuracy_score", AVal.int 5),
   ("professional_tone_score", AVal.int 5),
   ("reasoning", AVal.str "Analysis failed due to an error.")]

/-- One value of session["evaluation"]: question text, response text and
the analysis payload dict. -/
structure EvalEntry where
  question : String
  response : String
  analysis : List (String × AVal)
deriving DecidableEq, Repr

/-- The in-memory session dict built by start_interview / handler.py.
current_question is optional because process_response validates its
presence; the remaining keys are always created together. -/
structure Session where
  scenario : Scenario
  current_question : Option Question
  questions_asked : List String
  conversation_history : List Message
  evaluation : List (String × EvalEntry)
  awaiting_clarification : Bool := false
  interview_complete : Bool := false
deriving DecidableEq, Repr

/-- The three LLM oracles used by the turn engine.  A .error result
models the underlying chain call raising. next_question receives the
scenario title, description, formatted available questions and the
formatted conversation history, and returns a raw identifier string. -/
structure Oracle where
  clarify : String → String → Except Unit ClarificationResponse
  analyze : String → String → Except Unit ResponseAnalysis
  next_question : String → String → String → String → Except Unit String

/-- The system prompt prepended by start_interview (prompts.py
SYSTEM_PROMPT; text elided to its first sentence). -/
def SYSTEM_PROMPT : String :=
  "You are an HR interviewer conducting a technical assessment interview."

/-- The closing interviewer message appended on completion. -/
def closing_message : String :=
  "Thank you for completing this technical interview. We will now evaluate your responses."

/-- The Python exceptions that can cross a block boundary in the model. -/
inductive PyError where
  | valueError
deriving DecidableEq, Repr

/-- conversation.py start_interview, modelled from the resolved scenario
(the scenario_id lookup and random selection happen in the caller).
Raises ValueError when the scenario has no first question. -/
def start_interview (scenario : Scenario) : Except PyError Session :=
  match scenario.questions.head? with
  | none => .error .valueError
  | some first_question =>
    .ok { scenario := scenario
          current_question := some first_question
          questions_asked := [first_question.id]
          conversation_history :=
            [⟨Role.system, SYSTEM_PROMPT⟩,
             ⟨Role.ai, "Lets begin the interview. " ++ first_question.question⟩]
          evaluation := [] }

/-- Append one message to the conversation history. -/
def Session.appendMsg (s : Session) (m : Message) : Session :=
  { s with conversation_history := s.conversation_history ++ [m] }

/-- Mark the interview complete and append the closing message
(conversation.py lines 184-188 / 212-215 / 220-223). -/
def complete_session (s : Session) : Session :=
  ({ s with interview_complete := true }).appendMsg ⟨Role.ai, closing_message⟩

/-- Python str.strip: drop whitespace from both ends. -/
def pyStrip (s : String) : String :=
  ⟨((s.data.dropWhile Char.isWhitespace).reverse.dropWhile Char.isWhitespace).reverse⟩

/-- Python str.replace worker: replace non-overlapping occurrences left
to right; the fuel argument (initialized to the input length) makes the
recursion structural. -/
def pyReplaceGo (pat repl : List Char) : Nat → List Char → List Char
  | 0, l => l
  | fuel + 1, l =>
    match l with
    | [] => []
    | c :: rest =>
      if pat.isPrefixOf (c :: rest) then
        repl ++ pyReplaceGo pat repl fuel ((c :: rest).drop pat.length)
      else c :: pyReplaceGo pat repl fuel rest

/-- Python str.replace for a non-empty pattern. -/
def pyReplace (s pat repl : String) : String :=
  ⟨pyReplaceGo pat.data repl.data s.data.length s.data⟩

/-- Python s.split(sep)[0] for a one-character separator: the prefix
before the first occurrence. -/
def pySplitHead (s : String) (sep : Char) : String :=
  ⟨s.data.takeWhile (fun c => ¬ c = sep)⟩

/-- conversation.py line 315: strip the raw oracle output down to an
identifier. Python: raw.strip().replace("ID: ", "").split(",")[0].strip(). -/
def cleanup_question_id (raw : String) : String :=
  pyStrip (pySplitHead (pyReplace (pyStrip raw) "ID: " "") ',')

/-- conversation.py lines 291-293: the available-questions text fed to
the next-question oracle. -/
def format_available_questions (qs : List Question) : String :=
  String.intercalate "\n" (qs.map (fun q => "ID: " ++ q.id ++ ", Question: " ++ q.question))

/-- conversation.py lines 296-300: the conversation-history text fed to
the next-question oracle (system messages skipped). -/
def format_conversation_history (h : List Message) : String :=
  String.intercalate "\n"
    ((h.filter (fun m => m.role ≠ Role.system)).map
      (fun m => (if m.role = Role.ai then "Interviewer" else "Candidate") ++ ": " ++ m.content))

/-- conversation.py lines 267-270: the questions not yet asked, in
original scenario order. -/
def available_questions (s : Session) : List Question :=
  s.scenario.questions.filter (fun q => ¬ q.id ∈ s.questions_asked)

/-- conversation.py select_next_question. Returns none when no question
remains; with exactly one left returns it without consulting the oracle;
otherwise asks the oracle, cleans its answer and matches it against the
available set, falling back to the first available question on a
mismatch or an oracle failure. The outer try/except means the function
never raises. -/
def select_next_question (o : Oracle) (s : Session) : Option Question :=
  match available_questions s with
  | [] => none
  | q0 :: rest =>
    if rest.isEmpty then some q0
    else
      match o.next_question s.scenario.title s.scenario.description
          (format_available_questions (available_questions s))
          (format_conversation_history s.conversation_history) with
      | .error _ => some q0
      | .ok raw =>
        match (available_questions s).find? (fun q => q.id = cleanup_question_id raw) with
        | some q => some q
        | none => some q0

/-- conversation.py lines 134-172: clear the clarification flag and
store the analysis for the current question, substituting the five-score
fallback payload when the analysis oracle fails. -/
def record_analysis (o : Oracle) (s : Session) (response : String) (cq : Question) : Session :=
  { s with
    awaiting_clarification := false
    evaluation := dictSet s.evaluation cq.id
      ⟨cq.question, response,
        match o.analyze cq.question response with
        | .ok a => a.dict
        | .error _ => fallback_analysis_dict⟩ }

/-- conversation.py lines 174-225: complete the interview when every
question has been asked, otherwise advance to the selected next
question; a missing next question also completes the interview. -/
def advance_or_complete (o : Oracle) (s : Session) : Session :=
  if s.scenario.questions.length ≤ s.questions_asked.length then
    complete_session s
  else
    match select_next_question o s with
    | some nq =>
      ({ s with current_question := some nq
                questions_asked := s.questions_asked ++ [nq.id] }).appendMsg ⟨Role.ai, nq.question⟩
    | none => complete_session s

/-- conversation.py lines 134-226: the part of process_response after the
clarification check decided to continue. -/
def analyze_and_advance (o : Oracle) (s : Session) (response : String) (cq : Question) : Session :=
  advance_or_complete o (record_analysis o s response cq)

/-- conversation.py process_response without its outermost except: the
only uncaught raise left is the ValueError for a session lacking
current_question; every oracle failure is absorbed in-body. -/
def process_response_unhandled (o : Oracle) (s : Session) (response : String) :
    Except PyError Session :=
  match s.current_question with
  | none => .error .valueError
  | some cq =>
    let s := s.appendMsg ⟨Role.human, response⟩
    match o.clarify cq.question response with
    | .ok cr =>
      if cr.needs_clarification then
        .ok (({ s with awaiting_clarification := true }).appendMsg
              ⟨Role.ai, cr.clarification_question⟩)
      else .ok (analyze_and_advance o s response cq)
    | .error _ => .ok (analyze_and_advance o s response cq)

/-- conversation.py process_response: the outer except returns the
session as is, so the call never raises. -/
def process_response (o : Oracle) (s : Session) (response : String) : Session :=
  match process_response_unhandled o s response with
  | .ok s' => s'
  | .error _ => s

/-- Drive the turn engine over a list of submitted responses. -/
def run_steps (o : Oracle) (responses : List String) (s : Session) : Session :=
  responses.foldl (fun s r => process_response o s r) s

/-- An oracle every call of which fails. -/
def all_fail_oracle : Oracle where
  clarify := fun _ _ => .error ()
  analyze := fun _ _ => .error ()
  next_question := fun _ _ _ _ => .error ()

/-! ## handler.py: session orchestrator -/

/-- One stored turn record (storage.py store_response row, restricted to
the fields the handler reads back). -/
structure StoredResponse where
  question_id : String
  response_text : String
deriving DecidableEq, Repr

/-- The system message the handler uses when rebuilding history
(handler.py line 154). -/
def handler_system_message : String :=
  "You are an HR interviewer conducting a technical assessment interview."

/-- handler.py lines 151-166: rebuild the conversation history from the
stored turn records (question text looked up in the scenario, empty when
absent). -/
def rebuild_history (scenario : Scenario) (responses : List StoredResponse) : List Message :=
  ⟨Role.system, handler_system_message⟩ ::
    (responses.flatMap (fun r =>
      [⟨Role.ai, ((scenario.questions.find? (fun q => q.id = r.question_id)).map
          (fun q => q.question)).getD ""⟩,
       ⟨Role.human, r.response_text⟩]))

/-- The observable outcome of one handler.process_response call:
either an updated-session info result together with the new storage
contents, or a hand-off to complete_interview, or an error dict. -/
inductive HandlerResult where
  | info (stored : List StoredResponse) (updated : Session)
  | completed (stored : List StoredResponse)
  | error
deriving DecidableEq, Repr

/-- handler.py process_response for an existing session: reconstruct the
asked set and current question from storage, run the turn engine, then
unconditionally store the submitted response (line 206) and dispatch on
completion. A first call on a scenario without questions hits the
uncaught IndexError of line 174, which the outer except turns into an
error result. -/
def handler_process_response (o : Oracle) (scenario : Scenario)
    (stored : List StoredResponse) (response : String) : HandlerResult :=
  let questions_asked := stored.map (fun r => r.question_id)
  let cur? : Except PyError (Option Question) :=
    if questions_asked.isEmpty then
      match scenario.questions.head? with
      | none => .error .valueError
      | some q => .ok (some q)
    else .ok (scenario.questions.find? (fun q => ¬ q.id ∈ questions_asked))
  match cur? with
  | .error _ => .error
  | .ok none => .completed stored
  | .ok (some current_question) =>
    let history := rebuild_history scenario stored ++ [⟨Role.ai, current_question.question⟩]
    let sess : Session :=
      { scenario := scenario
        current_question := some current_question
        questions_asked := questions_asked
        conversation_history := history
        evaluation := [] }
    let updated := process_response o sess response
    let stored' := stored ++ [⟨current_question.id, response⟩]
    if updated.interview_complete then .completed stored'
    else if scenario.questions.length ≤ updated.questions_asked.length then .completed stored'
    else .info stored' updated

/-! ## handler.py complete_interview: storage-write ordering -/

/-- A final report, reduced to what the storage writes depend on. -/
structure Report where
  detailed_eval_keys : List String
  has_overall : Bool
deriving DecidableEq, Repr

/-- The oracles consumed by complete_interview. run_interview is
modelled as total: the present run_interview implementation
(master_agent.py) catches its own exceptions and returns an error value,
from which .get("final_summary", "") yields a string either way.
generate_report and the JSON export may raise. -/
structure CompletionOracle where
  run_interview : List String → String
  generate_report : String → Except Unit Report
  export_report : Report → Except Unit Unit

/-- One durable-storage side effect of complete_interview, in program
order. -/
inductive StorageOp where
  | update_status (status : String)
  | store_evaluation (kind : String)
  | store_report
deriving DecidableEq, Repr

/-- handler.py complete_interview as its ordered trace of storage writes
plus a success flag. The status update to completed is issued first
(line 270); the report row is stored at line 310; any raise afterwards or
in report generation reaches the except block, which overwrites the
status with error (line 333). -/
def complete_interview_ops (o : CompletionOracle) (responses : List StoredResponse) :
    List StorageOp × Bool :=
  let ops0 : List StorageOp := [StorageOp.update_status "completed"]
  let final_summary := o.run_interview (responses.map (fun r => r.response_text))
  match o.generate_report final_summary with
  | .error _ => (ops0 ++ [StorageOp.update_status "error"], false)
  | .ok report =>
    let evalOps : List StorageOp :=
      report.detailed_eval_keys.map (fun _ => StorageOp.store_evaluation "detailed")
        ++ (if report.has_overall then [StorageOp.store_evaluation "overall"] else [])
    let ops1 := ops0 ++ evalOps ++ [StorageOp.store_report]
    match o.export_report report with
    | .error _ => (ops1 ++ [StorageOp.update_status "error"], false)
    | .ok _ => (ops1, true)

/-! ## summary.py / tools.py: summarization reducer -/

/-- Errors of the summarization pipeline. emptyContents is the
ValueError of tools.py line 89; singleDocTooLong is the ValueError
raised by split_list_of_docs on an oversized leading document;
capExceeded is the LangGraph recursion-limit failure. -/
inductive SummError where
  | emptyContents
  | singleDocTooLong
  | capExceeded
deriving DecidableEq, Repr

/-- summary.py length_function: the token count of a document set. A
document is modelled by its token count, so the length function is the
sum. -/
def length_function (docs : List Nat) : Nat := docs.sum

/-- Loop body of langchain split_list_of_docs (the library routine
summary.py line 55 calls): greedily grow the current group; on overflow
raise if the overflowing group is a singleton, otherwise emit the group
without its last element and restart from that element. -/
def split_go (tokenMax : Nat) : List Nat → List Nat → List (List Nat) →
    Except SummError (List (List Nat))
  | [], acc, out => .ok (out ++ [acc])
  | d :: ds, acc, out =>
    let acc' := acc ++ [d]
    if tokenMax < length_function acc' then
      if acc'.length = 1 then .error .singleDocTooLong
      else split_go tokenMax ds [d] (out ++ [acc])
    else split_go tokenMax ds acc' out

/-- langchain split_list_of_docs, as invoked by collapse_summaries. -/
def split_list_of_docs (tokenMax : Nat) (docs : List Nat) : Except SummError (List (List Nat)) :=
  split_go tokenMax docs [] []

/-- summary.py collapse_summaries: split the documents into budget-sized
groups and reduce each group to one document through the reduce oracle
(acollapse_docs with the reduce chain); the oracle returns the token
count of the combined document. -/
def collapse_summaries (reduce : List Nat → Nat) (budget : Nat) (docs : List Nat) :
    Except SummError (List Nat) :=
  match split_list_of_docs budget docs with
  | .error e => .error e
  | .ok groups => .ok (groups.map reduce)

/-- The collapse loop of the summarization graph: should_collapse sends
the state back through collapse_summaries while the total size exceeds
the budget (summary.py lines 64-72); the LangGraph recursion_limit of 10
set by tools.py line 106 caps the number of rounds, exceeding it raises. -/
def collapse_loop (reduce : List Nat → Nat) (budget : Nat) :
    Nat → List Nat → Except SummError (List Nat)
  | 0, docs =>
    if length_function docs ≤ budget then .ok docs else .error .capExceeded
  | fuel + 1, docs =>
    if length_function docs ≤ budget then .ok docs
    else
      match collapse_summaries reduce budget docs with
      | .error e => .error e
      | .ok docs' => collapse_loop reduce budget fuel docs'

/-- The round cap installed by tools.py (recursion_limit 10). -/
def summarization_round_cap : Nat := 10

/-- The oracles of the summarization graph: map_chain gives the token
count of the per-unit summary document, reduce the token count of a
collapsed group, final_reduce the final narrative string. -/
structure SummaryOracle where
  map_chain : String → Nat
  reduce : List Nat → Nat
  final_reduce : List Nat → String

/-- tools.py summarize_interview_history: raise ValueError on empty
contents before the graph (and hence any oracle) is invoked; otherwise
map every content unit, run the collapse loop under the round cap, and
produce the final summary; graph failures propagate (lines 117-119
re-raise). -/
def summarize_interview_history (o : SummaryOracle) (budget : Nat) (contents : List String) :
    Except SummError String :=
  if contents.isEmpty then .error .emptyContents
  else
    let docs := contents.map o.map_chain
    match collapse_loop o.reduce budget summarization_round_cap docs with
    | .error e => .error e
    | .ok final_docs => .ok (o.final_reduce final_docs)

/-- master_agent.py lines 131-139: the content units fed to
summarization, built from the non-system conversation history. -/
def interview_contents (history : List Message) : List String :=
  (history.filter (fun m => m.role ≠ Role.system)).map
    (fun m => (if m.role = Role.human then "Candidate" else "Interviewer") ++ ": " ++ m.content)

/-- master_agent.py run_evaluation_tools, summarization step (lines
154-161): any summarization failure is caught and replaced by the
placeholder string. -/
def run_evaluation_tools_final_summary (o : SummaryOracle) (budget : Nat)
    (history : List Message) : String :=
  match summarize_interview_history o budget (interview_contents history) with
  | .ok s => s
  | .error _ => "Error generating summary."

/-! ## new_scenario_manager.py: staged conversation flow -/

/-- The per-stage data of a conversation flow entry. -/
structure StageData where
  agent_goals : List String
deriving DecidableEq, Repr

/-- A scenario dict as seen by new_scenario_manager.py: the staged
fields, with dict-key presence made explicit. -/
structure NScenario where
  id : String
  has_context : Bool
  has_customer_profile : Bool
  conversation_flow : Option (List (String × StageData))
deriving DecidableEq, Repr

/-- new_scenario_manager.py is_new_format_scenario: all three of
context, customer_profile and conversation_flow are present. -/
def is_new_format_scenario (sc : NScenario) : Bool :=
  sc.has_context && sc.has_customer_profile && sc.conversation_flow.isSome

/-- The question-like structure built for a conversation stage. -/
structure StageQuestion where
  id : String
  stage : String
  agent_goals : List String
  question : String
deriving DecidableEq, Repr

/-- Build the compatibility question dict for one stage of a flow. -/
def make_stage_question (flow : List (String × StageData)) (name : String) : StageQuestion :=
  { id := "stage_" ++ name
    stage := name
    agent_goals := (((flow.find? (fun p => p.1 = name)).map (fun p => p.2.agent_goals)).getD [])
    question := "Handle the " ++ name ++ " stage of the conversation" }

/-- Python list.index as an option: position of the first occurrence. -/
def list_index : List String → String → Option Nat
  | [], _ => none
  | x :: rest, t => if x = t then some 0 else (list_index rest t).map (fun n => n + 1)

/-- new_scenario_manager.py get_scenario_by_id: first scenario of the
store with the requested id (the two Python store lists are modelled as
one). -/
def n_get_scenario_by_id (store : List NScenario) (sid : String) : Option NScenario :=
  store.find? (fun sc => sc.id = sid)

/-- new_scenario_manager.py get_next_conversation_stage: none for a
missing or non-staged scenario or an empty flow; the first stage when
current is none; the stage following current otherwise; none when
current is last (index + 1 out of range) or not found (list.index
raising ValueError, caught). -/
def get_next_conversation_stage (store : List NScenario) (sid : String)
    (current : Option String) : Option StageQuestion :=
  match n_get_scenario_by_id store sid with
  | none => none
  | some sc =>
    if ¬ is_new_format_scenario sc then none
    else
      let flow := sc.conversation_flow.getD []
      if flow.isEmpty then none
      else
        let stages := flow.map (fun p => p.1)
        match current with
        | none => stages.head?.map (make_stage_question flow)
        | some cur =>
          match list_index stages cur with
          | none => none
          | some i =>
            match stages[i + 1]? with
            | some nxt => some (make_stage_question flow nxt)
            | none => none

/-- Iterate get_next_conversation_stage, collecting the visited stage
names. -/
def stage_walk (store : List NScenario) (sid : String) :
    Nat → Option String → List String
  | 0, _ => []
  | fuel + 1, cur =>
    match get_next_conversation_stage store sid cur with
    | none => []
    | some sq => sq.stage :: stage_walk store sid fuel (some sq.stage)

/-! ## Accessors and concrete fixtures used by witnesses and
counterexamples -/

/-- The storage contents carried by a handler result, when any. -/
def handler_stored : HandlerResult → Option (List StoredResponse)
  | .info stored _ => some stored
  | .completed stored => some stored
  | .error => none

/-- The updated session carried by a handler info result. -/
def handler_updated : HandlerResult → Option Session
  | .info _ updated => some updated
  | _ => none

/-- handler.py start_interview_session: creates the session row and the
in-memory session; no turn record is stored at start. -/
def start_interview_session (scenario : Scenario) :
    Except PyError (List StoredResponse × Session) :=
  (start_interview scenario).map (fun s => ([], s))

def q1 : Question := ⟨"q1", "What is polymorphism?"⟩

def q2 : Question := ⟨"q2", "Describe the REST architectural style."⟩

def q3 : Question := ⟨"q3", "Explain database indexing."⟩

/-- A traditional scenario with two questions. -/
def two_q_scenario : Scenario :=
  ⟨"scn2", "Backend basics", "A basic backend interview", [q1, q2]⟩

/-- A traditional scenario with three questions. -/
def three_q_scenario : Scenario :=
  ⟨"scn3", "Backend basics", "A basic backend interview", [q1, q2, q3]⟩

/-- A session of three_q_scenario sitting on q1, as built by
start_interview. -/
def session3 : Session :=
  { scenario := three_q_scenario
    current_question := some q1
    questions_asked := ["q1"]
    conversation_history :=
      [⟨Role.system, SYSTEM_PROMPT⟩, ⟨Role.ai, "Lets begin the interview. " ++ q1.question⟩]
    evaluation := [] }

/-- A session of two_q_scenario sitting on q1. -/
def session2 : Session :=
  { scenario := two_q_scenario
    current_question := some q1
    questions_asked := ["q1"]
    conversation_history :=
      [⟨Role.system, SYSTEM_PROMPT⟩, ⟨Role.ai, "Lets begin the interview. " ++ q1.question⟩]
    evaluation := [] }

/-- An oracle whose clarification check always requests clarification. -/
def clarifying_oracle : Oracle where
  clarify := fun _ _ => .ok ⟨true, "please elaborate", "the response is vague"⟩
  analyze := fun _ _ => .error ()
  next_question := fun _ _ _ _ => .error ()

/-- An oracle that never requests clarification, analyzes successfully
and returns an identifier matching no question. -/
def bad_id_oracle : Oracle where
  clarify := fun _ _ => .ok ⟨false, "", "clear"⟩
  analyze := fun _ _ => .ok ⟨7, 7, 7, 7, 7, "fine"⟩
  next_question := fun _ _ _ _ => .ok " ID: zz, because it fits best "

/-- A summarization oracle with unit-sized map summaries. -/
def unit_summary_oracle : SummaryOracle where
  map_chain := fun _ => 1
  reduce := fun docs => docs.sum
  final_reduce := fun _ => "final narrative"

/-- A completion oracle whose report generation fails. -/
def failing_completion_oracle : CompletionOracle where
  run_interview := fun _ => ""
  generate_report := fun _ => .error ()
  export_report := fun _ => .error ()

/-- A completion oracle that succeeds end to end. -/
def ok_completion_oracle : CompletionOracle where
  run_interview := fun _ => "summary"
  generate_report := fun _ => .ok ⟨["q1", "q2"], true⟩
  export_report := fun _ => .ok ()

/-- A staged-scenario store with one two-stage scenario. -/
def demo_flow : List (String × StageData) :=
  [("greeting", ⟨["welcome the customer"]⟩), ("closing", ⟨["wrap up"]⟩)]

def demo_nscenario : NScenario :=
  { id := "ns1", has_context := true, has_customer_profile := true
    conversation_flow := some demo_flow }

def demo_store : List NScenario := [demo_nscenario]

/-- A session of two_q_scenario with every question already asked. -/
def session_done : Session :=
  { scenario := two_q_scenario
    current_question := some q2
    questions_asked := ["q1", "q2"]
    conversation_history := [⟨Role.system, SYSTEM_PROMPT⟩]
    evaluation := [] }

/-- A scenario whose two questions share one id, making the asked count
lag the question count although no question remains available. -/
def dup_scenario : Scenario :=
  ⟨"scnD", "Duplicates", "Two questions with one id", [q1, ⟨"q1", "State it again."⟩]⟩

/-- A session of dup_scenario on q1 with q1 already asked: no available
question remains while the asked count is below the total. -/
def session_dup : Session :=
  { scenario := dup_scenario
    current_question := some q1
    questions_asked := ["q1"]
    conversation_history := [⟨Role.system, SYSTEM_PROMPT⟩]
    evaluation := [] }

/-! ## Shared lemmas -/

theorem dictSet_cons {α : Type} (a : String × α) (d : List (String × α)) (k : String)
    (v : α) :
    dictSet (a :: d) k v =
      if a.1 = k then (k, v) :: d.map (fun p => if p.1 = k then (k, v) else p)
      else a :: dictSet d k v := by
  by_cases ha : a.1 = k
  · simp [dictSet, ha]
  · simp only [dictSet, List.any_cons, if_neg ha]
    by_cases hd : d.any (fun p => p.1 = k) = true <;> simp [hd, ha]

theorem dictGet_cons_ne {α : Type} (a : String × α) (d : List (String × α)) (k : String)
    (h : ¬ a.1 = k) : dictGet (a :: d) k = dictGet d k := by
  simp [dictGet, List.find?_cons, h]

theorem dictGet_map_set_ne {α : Type} (d : List (String × α)) (k k' : String) (v : α)
    (h : ¬ k' = k) :
    dictGet (d.map (fun p => if p.1 = k then (k, v) else p)) k' = dictGet d k' := by
  induction d with
  | nil => rfl
  | cons a d ih =>
    by_cases ha : a.1 = k
    · simp only [List.map_cons, if_pos ha]
      rw [dictGet_cons_ne ⟨k, v⟩ _ k' (fun hh => h (by simpa using hh.symm))]
      rw [dictGet_cons_ne a d k' (by rw [ha]; exact fun hh => h hh.symm)]
      exact ih
    · simp only [List.map_cons, if_neg ha]
      by_cases ha' : a.1 = k'
      · simp [dictGet, List.find?_cons, ha']
      · rw [dictGet_cons_ne a _ k' ha', dictGet_cons_ne a d k' ha']
        exact ih

theorem dictGet_dictSet_self {α : Type} (d : List (String × α)) (k : String) (v : α) :
    dictGet (dictSet d k v) k = some v := by
  induction d with
  | nil => simp [dictSet, dictGet]
  | cons a d ih =>
    rw [dictSet_cons]
    by_cases ha : a.1 = k
    · simp [ha, dictGet, List.find?_cons]
    · rw [if_neg ha, dictGet_cons_ne a _ k ha]
      exact ih

theorem dictGet_dictSet_ne {α : Type} (d : List (String × α)) (k k' : String) (v : α)
    (h : ¬ k' = k) : dictGet (dictSet d k v) k' = dictGet d k' := by
  induction d with
  | nil =>
    have hk : ¬ ((k, v).1 = k') := fun hh => h hh.symm
    simp only [dictSet, List.any_nil, Bool.false_eq_true, if_false, List.nil_append]
    rw [dictGet_cons_ne ⟨k, v⟩ [] k' hk]
  | cons a d ih =>
    rw [dictSet_cons]
    by_cases ha : a.1 = k
    · rw [if_pos ha]
      rw [dictGet_cons_ne ⟨k, v⟩ _ k' (fun hh => h (by simpa using hh.symm))]
      rw [dictGet_map_set_ne d k k' v h]
      rw [dictGet_cons_ne a d k' (by rw [ha]; exact fun hh => h hh.symm)]
    · rw [if_neg ha]
      by_cases ha' : a.1 = k'
      · simp [dictGet, List.find?_cons, ha']
      · rw [dictGet_cons_ne a _ k' ha', dictGet_cons_ne a d k' ha']
        exact ih

theorem dictGet_dictSet_isSome {α : Type} (d : List (String × α)) (k k' : String) (v : α)
    (h : (dictGet d k').isSome = true) : (dictGet (dictSet d k v) k').isSome = true := by
  by_cases hk : k' = k
  · subst hk; rw [dictGet_dictSet_self]; rfl
  · rw [dictGet_dictSet_ne d k k' v hk]; exact h

theorem select_next_question_mem (o : Oracle) (s : Session) (q : Question)
    (h : select_next_question o s = some q) : q ∈ available_questions s := by
  unfold select_next_question at h
  cases havail : available_questions s with
  | nil => rw [havail] at h; simp at h
  | cons q0 rest =>
    rw [havail] at h
    simp only [] at h
    by_cases hr : rest.isEmpty = true
    · rw [if_pos hr] at h
      injection h with h
      rw [← h]; exact List.mem_cons_self q0 rest
    · rw [if_neg hr] at h
      cases hcall : o.next_question s.scenario.title s.scenario.description
          (format_available_questions (q0 :: rest))
          (format_conversation_history s.conversation_history) with
      | error e =>
        rw [hcall] at h
        simp only [] at h
        injection h with h
        rw [← h]; exact List.mem_cons_self q0 rest
      | ok raw =>
        rw [hcall] at h
        simp only [] at h
        cases hf : (q0 :: rest).find? (fun qq => qq.id = cleanup_question_id raw) with
        | none =>
          rw [hf] at h
          injection h with h
          rw [← h]; exact List.mem_cons_self q0 rest
        | some qq =>
          rw [hf] at h
          injection h with h
          rw [← h]; exact List.mem_of_find?_eq_some hf

theorem mem_available_not_asked (s : Session) (q : Question)
    (h : q ∈ available_questions s) : ¬ q.id ∈ s.questions_asked := by
  have := List.of_mem_filter h
  simpa using this

theorem process_response_of_unhandled (o : Oracle) (s s' : Session) (r : String)
    (h : process_response_unhandled o s r = Except.ok s') :
    process_response o s r = s' := by
  unfold process_response
  rw [h]

theorem process_response_no_current (o : Oracle) (s : Session) (r : String)
    (h : s.current_question = none) : process_response o s r = s := by
  unfold process_response process_response_unhandled
  rw [h]

theorem process_response_unhandled_clar (o : Oracle) (s : Session) (r : String)
    (cq : Question) (cr : ClarificationResponse)
    (hcq : s.current_question = some cq)
    (hc : o.clarify cq.question r = Except.ok cr)
    (hnc : cr.needs_clarification = true) :
    process_response_unhandled o s r =
      Except.ok (({ s.appendMsg ⟨Role.human, r⟩ with awaiting_clarification := true }).appendMsg
        ⟨Role.ai, cr.clarification_question⟩) := by
  unfold process_response_unhandled
  rw [hcq]
  simp only []
  rw [hc]
  simp only []
  rw [if_pos hnc]

theorem process_response_unhandled_continue (o : Oracle) (s : Session) (r : String)
    (cq : Question)
    (hcq : s.current_question = some cq)
    (hclar : ∀ cr, o.clarify cq.question r = Except.ok cr → cr.needs_clarification = false) :
    process_response_unhandled o s r =
      Except.ok (analyze_and_advance o (s.appendMsg ⟨Role.human, r⟩) r cq) := by
  unfold process_response_unhandled
  rw [hcq]
  simp only []
  cases hc : o.clarify cq.question r with
  | error e => rfl
  | ok cr =>
    simp only []
    rw [if_neg (by rw [hclar cr hc]; simp)]

theorem available_questions_congr (s s' : Session)
    (hq : s'.scenario = s.scenario) (ha : s'.questions_asked = s.questions_asked) :
    available_questions s' = available_questions s := by
  unfold available_questions
  rw [hq, ha]

theorem select_next_question_isSome (o : Oracle) (s : Session) (q0 : Question)
    (rest : List Question) (h : available_questions s = q0 :: rest) :
    (select_next_question o s).isSome = true := by
  unfold select_next_question
  rw [h]
  simp only []
  by_cases hr : rest.isEmpty = true
  · rw [if_pos hr]; rfl
  · rw [if_neg hr]
    cases hcall : o.next_question s.scenario.title s.scenario.description
        (format_available_questions (q0 :: rest))
        (format_conversation_history s.conversation_history) with
    | error e => rfl
    | ok raw =>
      simp only []
      cases hf : (q0 :: rest).find? (fun qq => qq.id = cleanup_question_id raw) with
      | none => rfl
      | some qq => rfl

theorem select_next_question_empty (o : Oracle) (s : Session)
    (h : available_questions s = []) : select_next_question o s = none := by
  unfold select_next_question
  rw [h]

theorem select_next_question_single (o : Oracle) (s : Session) (q0 : Question)
    (h : available_questions s = [q0]) : select_next_question o s = some q0 := by
  unfold select_next_question
  rw [h]
  rfl

theorem select_next_question_error (o : Oracle) (s : Session) (q0 : Question)
    (rest : List Question)
    (h : available_questions s = q0 :: rest) (hrest : ¬ rest = [])
    (hcall : o.next_question s.scenario.title s.scenario.description
        (format_available_questions (available_questions s))
        (format_conversation_history s.conversation_history) = Except.error ()) :
    select_next_question o s = some q0 := by
  rw [h] at hcall
  unfold select_next_question
  rw [h]
  simp only []
  have hr : ¬ rest.isEmpty = true := by
    cases rest with
    | nil => exact absurd rfl hrest
    | cons a l => simp
  rw [if_neg hr, hcall]

theorem select_all_fail_head (s : Session) (q0 : Question) (rest : List Question)
    (h : available_questions s = q0 :: rest) :
    select_next_question all_fail_oracle s = some q0 := by
  unfold select_next_question
  rw [h]
  simp only []
  by_cases hr : rest.isEmpty = true
  · rw [if_pos hr]
  · rw [if_neg hr]
    rfl

theorem advance_or_complete_full (o : Oracle) (s : Session)
    (hlen : s.scenario.questions.length ≤ s.questions_asked.length) :
    advance_or_complete o s = complete_session s := by
  unfold advance_or_complete
  rw [if_pos hlen]

theorem advance_or_complete_of_select (o : Oracle) (s : Session) (nq : Question)
    (hlen : ¬ s.scenario.questions.length ≤ s.questions_asked.length)
    (hsel : select_next_question o s = some nq) :
    advance_or_complete o s =
      ({ s with current_question := some nq
                questions_asked := s.questions_asked ++ [nq.id] }).appendMsg
        ⟨Role.ai, nq.question⟩ := by
  unfold advance_or_complete
  rw [if_neg hlen, hsel]

theorem advance_or_complete_none (o : Oracle) (s : Session)
    (hlen : ¬ s.scenario.questions.length ≤ s.questions_asked.length)
    (hsel : select_next_question o s = none) :
    advance_or_complete o s = complete_session s := by
  unfold advance_or_complete
  rw [if_neg hlen, hsel]

theorem record_analysis_all_fail (s : Session) (r : String) (cq : Question) :
    record_analysis all_fail_oracle s r cq =
      { s with
        awaiting_clarification := false
        evaluation := dictSet s.evaluation cq.id
          ⟨cq.question, r, fallback_analysis_dict⟩ } := rfl

theorem handler_stored_dispatch (b1 b2 : Prop) [Decidable b1] [Decidable b2]
    (st : List StoredResponse) (u : Session) :
    handler_stored
        (if b1 then HandlerResult.completed st
         else if b2 then HandlerResult.completed st else HandlerResult.info st u) = some st := by
  by_cases h1 : b1 <;> by_cases h2 : b2 <;> simp [h1, h2, handler_stored]

theorem handler_stored_shape (o : Oracle) (scn : Scenario)
    (stored : List StoredResponse) (r : String) (st' : List StoredResponse)
    (h : handler_stored (handler_process_response o scn stored r) = some st') :
    st' = stored ∨
    ∃ cq : Question, st' = stored ++ [⟨cq.id, r⟩] ∧
      ¬ cq.id ∈ stored.map (fun t => t.question_id) := by
  cases stored with
  | nil =>
    unfold handler_process_response at h
    simp only [List.map_nil, List.isEmpty_nil, if_true] at h
    cases hh : scn.questions.head? with
    | none => rw [hh] at h; simp [handler_stored] at h
    | some q =>
      rw [hh] at h
      simp only [] at h
      rw [handler_stored_dispatch] at h
      injection h with h
      exact Or.inr ⟨q, by rw [← h]; exact ⟨rfl, by simp⟩⟩
  | cons t ts =>
    unfold handler_process_response at h
    simp only [List.map_cons, List.isEmpty_cons, Bool.false_eq_true, if_false] at h
    cases hf : scn.questions.find?
        (fun q => ¬ q.id ∈ t.question_id :: ts.map (fun x => x.question_id)) with
    | none =>
      rw [hf] at h
      simp only [handler_stored] at h
      injection h with h
      exact Or.inl h.symm
    | some cq =>
      rw [hf] at h
      simp only [] at h
      rw [handler_stored_dispatch] at h
      injection h with h
      refine Or.inr ⟨cq, by rw [← h], ?_⟩
      have := List.find?_some hf
      simpa using this

theorem analyze_and_advance_asked (o : Oracle) (s : Session) (r : String) (cq : Question) :
    (analyze_and_advance o s r cq).questions_asked = s.questions_asked ∨
    ∃ nq : Question, select_next_question o (record_analysis o s r cq) = some nq ∧
      (analyze_and_advance o s r cq).questions_asked = s.questions_asked ++ [nq.id] := by
  unfold analyze_and_advance
  by_cases hlen : (record_analysis o s r cq).scenario.questions.length ≤
      (record_analysis o s r cq).questions_asked.length
  · rw [advance_or_complete_full o _ hlen]
    exact Or.inl rfl
  · cases hsel : select_next_question o (record_analysis o s r cq) with
    | none =>
      rw [advance_or_complete_none o _ hlen hsel]
      exact Or.inl rfl
    | some nq =>
      rw [advance_or_complete_of_select o _ nq hlen hsel]
      exact Or.inr ⟨nq, rfl, rfl⟩

theorem nodup_append_singleton {α : Type} (l : List α) (a : α)
    (hl : l.Nodup) (ha : ¬ a ∈ l) : (l ++ [a]).Nodup := by
  rw [List.nodup_append]
  refine ⟨hl, List.nodup_singleton a, ?_⟩
  intro x hx hmem
  simp at hmem
  rw [hmem] at hx
  exact ha hx

theorem split_go_join (tokenMax : Nat) (ds : List Nat) : ∀ (acc : List Nat)
    (out gs : List (List Nat)), split_go tokenMax ds acc out = Except.ok gs →
    gs.flatten = out.flatten ++ (acc ++ ds) := by
  induction ds with
  | nil =>
    intro acc out gs h
    unfold split_go at h
    injection h with h
    rw [← h]
    simp
  | cons d ds ih =>
    intro acc out gs h
    unfold split_go at h
    simp only [] at h
    by_cases hov : tokenMax < length_function (acc ++ [d])
    · rw [if_pos hov] at h
      by_cases h1 : (acc ++ [d]).length = 1
      · rw [if_pos h1] at h
        cases h
      · rw [if_neg h1] at h
        have := ih [d] (out ++ [acc]) gs h
        rw [this]
        simp
    · rw [if_neg hov] at h
      have := ih (acc ++ [d]) out gs h
      rw [this]
      simp

theorem split_go_ne_nil (tokenMax : Nat) (ds : List Nat) : ∀ (acc : List Nat)
    (out gs : List (List Nat)), (∀ g ∈ out, ¬ g = []) → (acc = [] → ¬ ds = []) →
    split_go tokenMax ds acc out = Except.ok gs → ∀ g ∈ gs, ¬ g = [] := by
  induction ds with
  | nil =>
    intro acc out gs hout hacc h
    unfold split_go at h
    injection h with h
    intro g hg
    rw [← h] at hg
    rcases List.mem_append.mp hg with hg | hg
    · exact hout g hg
    · rw [List.mem_singleton.mp hg]
      intro hnil
      exact hacc hnil rfl
  | cons d ds ih =>
    intro acc out gs hout hacc h
    unfold split_go at h
    simp only [] at h
    by_cases hov : tokenMax < length_function (acc ++ [d])
    · rw [if_pos hov] at h
      by_cases h1 : (acc ++ [d]).length = 1
      · rw [if_pos h1] at h
        cases h
      · rw [if_neg h1] at h
        refine ih [d] (out ++ [acc]) gs ?_ (by intro hc; cases hc) h
        intro g hg
        rcases List.mem_append.mp hg with hg | hg
        · exact hout g hg
        · rw [List.mem_singleton.mp hg]
          intro hnil
          rw [hnil] at h1
          simp at h1
    · rw [if_neg hov] at h
      refine ih (acc ++ [d]) out gs hout (by intro hc; simp at hc) h

theorem length_le_join_length (gs : List (List Nat))
    (h : ∀ g ∈ gs, ¬ g = []) : gs.length ≤ gs.flatten.length := by
  induction gs with
  | nil => simp
  | cons g gs ih =>
    have hg : ¬ g = [] := h g (List.mem_cons_self g gs)
    have hlen : 1 ≤ g.length := by
      cases g with
      | nil => exact absurd rfl hg
      | cons a l => simp
    have := ih (fun g' hg' => h g' (List.mem_cons_of_mem g hg'))
    simp only [List.flatten_cons, List.length_cons, List.length_append]
    omega

theorem advance_or_complete_evaluation (o : Oracle) (s : Session) :
    (advance_or_complete o s).evaluation = s.evaluation := by
  unfold advance_or_complete
  by_cases hlen : s.scenario.questions.length ≤ s.questions_asked.length
  · rw [if_pos hlen]
    rfl
  · rw [if_neg hlen]
    cases hsel : select_next_question o s with
    | none => rfl
    | some nq => rfl

theorem record_analysis_of_analyze_error (o : Oracle) (s : Session) (r : String)
    (cq : Question) (hana : o.analyze cq.question r = Except.error ()) :
    record_analysis o s r cq =
      { s with
        awaiting_clarification := false
        evaluation := dictSet s.evaluation cq.id
          ⟨cq.question, r, fallback_analysis_dict⟩ } := by
  unfold record_analysis
  rw [hana]

theorem filter_not_mem_asked (done : List Question) : ∀ rest : List Question,
    (((done ++ rest).map (fun q => q.id)).Nodup) →
    (done ++ rest).filter (fun q => ¬ q.id ∈ done.map (fun q => q.id)) = rest := by
  induction done with
  | nil =>
    intro rest h
    simp only [List.nil_append, List.map_nil]
    apply List.filter_eq_self.mpr
    intro a ha
    simp
  | cons d done ih =>
    intro rest h
    rw [List.cons_append, List.map_cons, List.nodup_cons] at h
    obtain ⟨hni, hnod⟩ := h
    rw [List.cons_append, List.filter_cons]
    rw [if_neg (by simp)]
    have hcongr : (done ++ rest).filter
        (fun q => ¬ q.id ∈ (d :: done).map (fun q => q.id)) =
        (done ++ rest).filter (fun q => ¬ q.id ∈ done.map (fun q => q.id)) := by
      apply List.filter_congr
      intro q hq
      have hqid : q.id ∈ (done ++ rest).map (fun q => q.id) :=
        List.mem_map_of_mem _ hq
      have hne : ¬ q.id = d.id := by
        intro hh
        rw [hh] at hqid
        exact hni hqid
      simp [hne]
    rw [hcongr]
    exact ih rest hnod

theorem available_eq_rest (s : Session) (done rest : List Question)
    (hs : s.scenario.questions = done ++ rest)
    (ha : s.questions_asked = done.map (fun q => q.id))
    (hnod : (s.scenario.questions.map (fun q => q.id)).Nodup) :
    available_questions s = rest := by
  unfold available_questions
  rw [hs, ha]
  rw [hs] at hnod
  exact filter_not_mem_asked done rest hnod

theorem all_fail_clarify_absurd (cq : Question) (r : String) :
    ∀ cr, all_fail_oracle.clarify cq.question r = Except.ok cr →
      cr.needs_clarification = false := by
  intro cr h
  exact Except.noConfusion h

theorem run_all_fail_completes (rest : List Question) : ∀ (done : List Question)
    (cur : Question) (s : Session) (rs : List String),
    s.scenario.questions = done ++ cur :: rest →
    s.current_question = some cur →
    s.questions_asked = (done ++ [cur]).map (fun q => q.id) →
    (s.scenario.questions.map (fun q => q.id)).Nodup →
    (∀ q ∈ done, (dictGet s.evaluation q.id).isSome = true) →
    rs.length = rest.length + 1 →
    (run_steps all_fail_oracle rs s).interview_complete = true ∧
    ∀ q ∈ s.scenario.questions,
      (dictGet (run_steps all_fail_oracle rs s).evaluation q.id).isSome = true := by
  induction rest with
  | nil =>
    intro done cur s rs hs hcq ha hnod hev hlen
    cases rs with
    | nil => simp at hlen
    | cons r rs' =>
      cases rs' with
      | cons r2 rs'' => simp at hlen
      | nil =>
        have hstep : process_response all_fail_oracle s r =
            analyze_and_advance all_fail_oracle (s.appendMsg ⟨Role.human, r⟩) r cur :=
          process_response_of_unhandled _ s _ r
            (process_response_unhandled_continue _ s r cur hcq
              (all_fail_clarify_absurd cur r))
        have hfull : (record_analysis all_fail_oracle
            (s.appendMsg ⟨Role.human, r⟩) r cur).scenario.questions.length ≤
            (record_analysis all_fail_oracle
              (s.appendMsg ⟨Role.human, r⟩) r cur).questions_asked.length := by
          show s.scenario.questions.length ≤ s.questions_asked.length
          rw [hs, ha]
          simp
        have hadv : analyze_and_advance all_fail_oracle
            (s.appendMsg ⟨Role.human, r⟩) r cur =
            complete_session (record_analysis all_fail_oracle
              (s.appendMsg ⟨Role.human, r⟩) r cur) :=
          advance_or_complete_full _ _ hfull
        have hrun : run_steps all_fail_oracle [r] s =
            complete_session (record_analysis all_fail_oracle
              (s.appendMsg ⟨Role.human, r⟩) r cur) := by
          show process_response all_fail_oracle s r = _
          rw [hstep, hadv]
        rw [hrun]
        constructor
        · rfl
        · intro q hq
          show (dictGet (dictSet s.evaluation cur.id
            ⟨cur.question, r, fallback_analysis_dict⟩) q.id).isSome = true
          rw [hs] at hq
          rcases List.mem_append.mp hq with hq | hq
          · exact dictGet_dictSet_isSome _ _ _ _ (hev q hq)
          · rw [List.mem_singleton.mp hq]
            rw [dictGet_dictSet_self]
            rfl
  | cons q' rest'' ih =>
    intro done cur s rs hs hcq ha hnod hev hlen
    cases rs with
    | nil => simp at hlen
    | cons r rs' =>
      have hstep : process_response all_fail_oracle s r =
          analyze_and_advance all_fail_oracle (s.appendMsg ⟨Role.human, r⟩) r cur :=
        process_response_of_unhandled _ s _ r
          (process_response_unhandled_continue _ s r cur hcq
            (all_fail_clarify_absurd cur r))
      have hnotfull : ¬ (record_analysis all_fail_oracle
          (s.appendMsg ⟨Role.human, r⟩) r cur).scenario.questions.length ≤
          (record_analysis all_fail_oracle
            (s.appendMsg ⟨Role.human, r⟩) r cur).questions_asked.length := by
        show ¬ s.scenario.questions.length ≤ s.questions_asked.length
        rw [hs, ha]
        simp
      have havq : available_questions (record_analysis all_fail_oracle
          (s.appendMsg ⟨Role.human, r⟩) r cur) = q' :: rest'' := by
        apply available_eq_rest _ (done ++ [cur]) (q' :: rest'')
        · show s.scenario.questions = (done ++ [cur]) ++ q' :: rest''
          rw [hs, List.append_cons]
        · show s.questions_asked = (done ++ [cur]).map (fun q => q.id)
          exact ha
        · show (s.scenario.questions.map (fun q => q.id)).Nodup
          exact hnod
      have hsel : select_next_question all_fail_oracle (record_analysis all_fail_oracle
          (s.appendMsg ⟨Role.human, r⟩) r cur) = some q' :=
        select_all_fail_head _ q' rest'' havq
      have hadv : analyze_and_advance all_fail_oracle
          (s.appendMsg ⟨Role.human, r⟩) r cur =
          ({ record_analysis all_fail_oracle (s.appendMsg ⟨Role.human, r⟩) r cur with
              current_question := some q'
              questions_asked := (record_analysis all_fail_oracle
                (s.appendMsg ⟨Role.human, r⟩) r cur).questions_asked ++ [q'.id]
            }).appendMsg ⟨Role.ai, q'.question⟩ :=
        advance_or_complete_of_select _ _ q' hnotfull hsel
      have hrun : run_steps all_fail_oracle (r :: rs') s =
          run_steps all_fail_oracle rs'
            (({ record_analysis all_fail_oracle (s.appendMsg ⟨Role.human, r⟩) r cur with
                current_question := some q'
                questions_asked := (record_analysis all_fail_oracle
                  (s.appendMsg ⟨Role.human, r⟩) r cur).questions_asked ++ [q'.id]
              }).appendMsg ⟨Role.ai, q'.question⟩) := by
        show run_steps all_fail_oracle rs' (process_response all_fail_oracle s r) = _
        rw [hstep, hadv]
      rw [hrun]
      have hres := ih (done ++ [cur]) q'
        (({ record_analysis all_fail_oracle (s.appendMsg ⟨Role.human, r⟩) r cur with
            current_question := some q'
            questions_asked := (record_analysis all_fail_oracle
              (s.appendMsg ⟨Role.human, r⟩) r cur).questions_asked ++ [q'.id]
          }).appendMsg ⟨Role.ai, q'.question⟩) rs'
        (by show s.scenario.questions = (done ++ [cur]) ++ q' :: rest''
            rw [hs, List.append_cons])
        rfl
        (by show s.questions_asked ++ [q'.id] = ((done ++ [cur]) ++ [q']).map (fun q => q.id)
            rw [ha]
            simp)
        (by show (s.scenario.questions.map (fun q => q.id)).Nodup
            exact hnod)
        (by intro q hq
            show (dictGet (dictSet s.evaluation cur.id
              ⟨cur.question, r, fallback_analysis_dict⟩) q.id).isSome = true
            rcases List.mem_append.mp hq with hq | hq
            · exact dictGet_dictSet_isSome _ _ _ _ (hev q hq)
            · rw [List.mem_singleton.mp hq]
              rw [dictGet_dictSet_self]
              rfl)
        (by simp at hlen
            simpa using hlen)
      refine ⟨hres.1, ?_⟩
      intro q hq
      apply hres.2
      show q ∈ s.scenario.questions
      exact hq

theorem list_index_of_nodup (stages : List String) : ∀ (i : Nat) (h : i < stages.length),
    stages.Nodup → list_index stages (stages.get ⟨i, h⟩) = some i := by
  induction stages with
  | nil => intro i h _; simp at h
  | cons a l ih =>
    intro i h hnod
    rw [List.nodup_cons] at hnod
    obtain ⟨hna, hnod⟩ := hnod
    cases i with
    | zero => simp [list_index]
    | succ j =>
      have hj : j < l.length := by simpa using h
      have hne : ¬ a = l.get ⟨j, hj⟩ := by
        intro hh
        exact hna (hh ▸ List.get_mem l j hj)
      unfold list_index
      have hg : (a :: l).get ⟨j + 1, h⟩ = l.get ⟨j, hj⟩ := rfl
      rw [hg]
      rw [if_neg hne]
      show (list_index l (l.get ⟨j, hj⟩)).map (fun n => n + 1) = some (j + 1)
      rw [ih j hj hnod]
      rfl

theorem list_index_not_mem (stages : List String) (t : String) (h : ¬ t ∈ stages) :
    list_index stages t = none := by
  induction stages with
  | nil => rfl
  | cons a l ih =>
    unfold list_index
    rw [if_neg (by intro hh; exact h (by rw [← hh]; exact List.mem_cons_self a l))]
    rw [ih (fun hm => h (List.mem_cons_of_mem a hm))]
    rfl

theorem head?_eq_get_zero (l : List String) (h0 : 0 < l.length) :
    l.head? = some (l.get ⟨0, h0⟩) := by
  cases l with
  | nil => simp at h0
  | cons a t => rfl

theorem gns_none_eq (store : List NScenario) (sid : String) (sc : NScenario)
    (flow : List (String × StageData))
    (hfind : n_get_scenario_by_id store sid = some sc)
    (hfmt : is_new_format_scenario sc = true)
    (hflow : sc.conversation_flow = some flow)
    (hne : ¬ flow = []) :
    get_next_conversation_stage store sid none =
      ((flow.map (fun p => p.1)).head?).map (make_stage_question flow) := by
  unfold get_next_conversation_stage
  rw [hfind]
  simp only []
  rw [if_neg (fun hn => hn hfmt)]
  rw [hflow]
  simp only [Option.getD_some]
  rw [if_neg (by cases flow with
    | nil => exact absurd rfl hne
    | cons p q => simp)]

theorem gns_some_eq (store : List NScenario) (sid : String) (sc : NScenario)
    (flow : List (String × StageData))
    (hfind : n_get_scenario_by_id store sid = some sc)
    (hfmt : is_new_format_scenario sc = true)
    (hflow : sc.conversation_flow = some flow)
    (hne : ¬ flow = []) (cur : String) :
    get_next_conversation_stage store sid (some cur) =
      (match list_index (flow.map (fun p => p.1)) cur with
       | none => none
       | some i =>
         match (flow.map (fun p => p.1))[i + 1]? with
         | some nxt => some (make_stage_question flow nxt)
         | none => none) := by
  unfold get_next_conversation_stage
  rw [hfind]
  simp only []
  rw [if_neg (fun hn => hn hfmt)]
  rw [hflow]
  simp only [Option.getD_some]
  rw [if_neg (by cases flow with
    | nil => exact absurd rfl hne
    | cons p q => simp)]

theorem gns_step (store : List NScenario) (sid : String) (sc : NScenario)
    (flow : List (String × StageData))
    (hfind : n_get_scenario_by_id store sid = some sc)
    (hfmt : is_new_format_scenario sc = true)
    (hflow : sc.conversation_flow = some flow)
    (hne : ¬ flow = [])
    (hnod : (flow.map (fun p => p.1)).Nodup)
    (i : Nat) (h : i + 1 < (flow.map (fun p => p.1)).length) :
    get_next_conversation_stage store sid
        (some ((flow.map (fun p => p.1)).get ⟨i, Nat.lt_of_succ_lt h⟩)) =
      some (make_stage_question flow ((flow.map (fun p => p.1)).get ⟨i + 1, h⟩)) := by
  rw [gns_some_eq store sid sc flow hfind hfmt hflow hne]
  rw [list_index_of_nodup (flow.map (fun p => p.1)) i (Nat.lt_of_succ_lt h) hnod]
  simp only []
  rw [List.getElem?_eq_getElem h]
  rfl

theorem gns_last (store : List NScenario) (sid : String) (sc : NScenario)
    (flow : List (String × StageData))
    (hfind : n_get_scenario_by_id store sid = some sc)
    (hfmt : is_new_format_scenario sc = true)
    (hflow : sc.conversation_flow = some flow)
    (hne : ¬ flow = [])
    (hnod : (flow.map (fun p => p.1)).Nodup)
    (i : Nat) (h : i < (flow.map (fun p => p.1)).length)
    (hlast : i + 1 = (flow.map (fun p => p.1)).length) :
    get_next_conversation_stage store sid
        (some ((flow.map (fun p => p.1)).get ⟨i, h⟩)) = none := by
  rw [gns_some_eq store sid sc flow hfind hfmt hflow hne]
  rw [list_index_of_nodup (flow.map (fun p => p.1)) i h hnod]
  simp only []
  rw [List.getElem?_eq_none (by omega)]

theorem stage_walk_drop (store : List NScenario) (sid : String) (sc : NScenario)
    (flow : List (String × StageData))
    (hfind : n_get_scenario_by_id store sid = some sc)
    (hfmt : is_new_format_scenario sc = true)
    (hflow : sc.conversation_flow = some flow)
    (hne : ¬ flow = [])
    (hnod : (flow.map (fun p => p.1)).Nodup) :
    ∀ (fuel i : Nat) (h : i < (flow.map (fun p => p.1)).length),
      (flow.map (fun p => p.1)).length - (i + 1) ≤ fuel →
      stage_walk store sid fuel (some ((flow.map (fun p => p.1)).get ⟨i, h⟩)) =
        (flow.map (fun p => p.1)).drop (i + 1) := by
  intro fuel
  induction fuel with
  | zero =>
    intro i h hle
    unfold stage_walk
    rw [List.drop_eq_nil_of_le (by omega)]
  | succ n ih =>
    intro i h hle
    by_cases hlast : i + 1 = (flow.map (fun p => p.1)).length
    · unfold stage_walk
      rw [gns_last store sid sc flow hfind hfmt hflow hne hnod i h hlast]
      rw [List.drop_eq_nil_of_le (by omega)]
    · have hlt : i + 1 < (flow.map (fun p => p.1)).length := by omega
      unfold stage_walk
      rw [gns_step store sid sc flow hfind hfmt hflow hne hnod i hlt]
      simp only []
      show ((flow.map (fun p => p.1)).get ⟨i + 1, hlt⟩) ::
        stage_walk store sid n (some ((flow.map (fun p => p.1)).get ⟨i + 1, hlt⟩)) = _
      rw [ih (i + 1) hlt (by omega)]
      rw [List.get_eq_getElem]
      rw [← List.drop_eq_getElem_cons hlt]

/-! ## Claim theorems -/

/-- C9: process_response never raises past its own boundary: for every
oracle behavior, every session carrying a current question and every
response text, the unhandled body already returns ok (every internal
oracle failure is absorbed by a documented fallback) and its value is
exactly the session value process_response returns. -/
theorem c9_process_response_never_raises (o : Oracle) (s : Session) (r : String)
    (h : s.current_question.isSome = true) :
    process_response_unhandled o s r = Except.ok (process_response o s r) := by
  cases hcq : s.current_question with
  | none => rw [hcq] at h; simp at h
  | some cq =>
    unfold process_response process_response_unhandled
    rw [hcq]
    simp only []
    cases hc : o.clarify cq.question r with
    | error e => simp
    | ok cr =>
      simp only []
      by_cases hnc : cr.needs_clarification = true
      · rw [if_pos hnc]
      · rw [if_neg hnc]

/-- Witness for C9 at a concrete session and the all-failing oracle. -/
theorem c9_witness :
    process_response_unhandled all_fail_oracle session2 "hello" =
      Except.ok (process_response all_fail_oracle session2 "hello") :=
  c9_process_response_never_raises all_fail_oracle session2 "hello" (by decide)

/-- C4: with more than one not-yet-asked question, when the
next-question oracle returns a raw string whose cleaned identifier
(strip, drop the text after the first comma, remove the ID marker)
matches no available question, select_next_question returns the first
available question in original scenario order. -/
theorem c4_unmatched_id_first_available (o : Oracle) (s : Session)
    (q0 : Question) (rest : List Question) (raw : String)
    (havail : available_questions s = q0 :: rest)
    (hrest : ¬ rest = [])
    (hcall : o.next_question s.scenario.title s.scenario.description
        (format_available_questions (available_questions s))
        (format_conversation_history s.conversation_history) = Except.ok raw)
    (hnomatch : ∀ q ∈ available_questions s, ¬ q.id = cleanup_question_id raw) :
    select_next_question o s = some q0 := by
  rw [havail] at hcall hnomatch
  unfold select_next_question
  rw [havail]
  simp only []
  have hr : ¬ rest.isEmpty = true := by
    cases rest with
    | nil => exact absurd rfl hrest
    | cons a l => simp
  rw [if_neg hr, hcall]
  simp only []
  have hfind : (q0 :: rest).find? (fun q => q.id = cleanup_question_id raw) = none := by
    rw [List.find?_eq_none]
    intro q hq
    simpa using hnomatch q hq
  rw [hfind]

/-- Witness for C4: session3 has two available questions and the
bad_id_oracle answers with an identifier zz matching none of them, so
the first available question q2 is selected. -/
theorem c4_witness : select_next_question bad_id_oracle session3 = some q2 :=
  c4_unmatched_id_first_available bad_id_oracle session3 q2 [q3]
    " ID: zz, because it fits best " (by decide) (by decide) rfl (by decide)

/-- C10: summarize_interview_history fails with the empty-contents
ValueError whenever the contents list is empty, independently of the
oracle (so before any oracle call), hence a session whose history holds
no exchanges makes the caller substitute the placeholder string. -/
theorem c10_empty_contents_placeholder (o : SummaryOracle) (budget : Nat)
    (history : List Message) (h : ∀ m ∈ history, m.role = Role.system) :
    summarize_interview_history o budget [] = Except.error SummError.emptyContents ∧
    summarize_interview_history o budget (interview_contents history) =
      Except.error SummError.emptyContents ∧
    run_evaluation_tools_final_summary o budget history = "Error generating summary." := by
  have hc : interview_contents history = [] := by
    unfold interview_contents
    have hf : history.filter (fun m => m.role ≠ Role.system) = [] := by
      rw [List.filter_eq_nil_iff]
      intro m hm
      simp [h m hm]
    rw [hf]
    rfl
  refine ⟨?_, ?_, ?_⟩
  · rfl
  · rw [hc]; rfl
  · unfold run_evaluation_tools_final_summary
    rw [hc]
    rfl

/-- Witness for C10 at a history holding only the system message. -/
theorem c10_witness :
    summarize_interview_history unit_summary_oracle 1000
        (interview_contents [⟨Role.system, SYSTEM_PROMPT⟩]) =
      Except.error SummError.emptyContents ∧
    run_evaluation_tools_final_summary unit_summary_oracle 1000
        [⟨Role.system, SYSTEM_PROMPT⟩] = "Error generating summary." := by
  have h := c10_empty_contents_placeholder unit_summary_oracle 1000
    [⟨Role.system, SYSTEM_PROMPT⟩] (by intro m hm; simp at hm; rw [hm])
  exact ⟨h.2.1, h.2.2⟩

/-- C8 (code-bug evidence): complete_interview issues the status update
to completed as its first storage write, before the report row, for
every oracle behavior and response set; and at the concrete failing
input where report generation raises, the trace is exactly
completed-then-error, so completed is neither last nor terminal. -/
theorem c8_completed_written_before_report :
    (∀ (o : CompletionOracle) (rs : List StoredResponse),
        (complete_interview_ops o rs).1.head? =
          some (StorageOp.update_status "completed")) ∧
    complete_interview_ops failing_completion_oracle [] =
      ([StorageOp.update_status "completed", StorageOp.update_status "error"], false) := by
  constructor
  · intro o rs
    unfold complete_interview_ops
    cases hg : o.generate_report (o.run_interview (rs.map (fun r => r.response_text))) with
    | error e => simp [hg]
    | ok rep =>
      cases he : o.export_report rep with
      | error e => simp [hg, he]
      | ok u => simp [hg, he]
  · rfl

/-- C2 (code-bug evidence): at the concrete clarification round the turn
engine leaves the current question unchanged, sets
awaiting_clarification, records no analysis and appends exactly one new
agent message carrying the clarification question, yet the handler still
stores a turn record for the submission. -/
theorem c2_clarification_still_stores_turn_record :
    handler_stored (handler_process_response clarifying_oracle two_q_scenario [] "vague answer") =
      some [⟨"q1", "vague answer"⟩] ∧
    (handler_updated
        (handler_process_response clarifying_oracle two_q_scenario [] "vague answer")).map
        (fun u => (u.awaiting_clarification, u.current_question, u.evaluation,
          u.conversation_history)) =
      some (true, some q1, [],
        [⟨Role.system, handler_system_message⟩, ⟨Role.ai, q1.question⟩,
         ⟨Role.human, "vague answer"⟩, ⟨Role.ai, "please elaborate"⟩]) := by
  constructor <;> rfl

/-- C1 (counterexample): with a failing analysis oracle the fallback
entry recorded for the current question carries the five-axis payload
with no grammar_score and no vocabulary_score key, so the claimed seven
axes of score 5 do not exist; the reasoning string also ends with a
period. -/
theorem c1_counterexample :
    dictGet (process_response all_fail_oracle session2 "resp").evaluation "q1" =
      some ⟨q1.question, "resp", fallback_analysis_dict⟩ ∧
    dictGet fallback_analysis_dict "grammar_score" = none ∧
    dictGet fallback_analysis_dict "vocabulary_score" = none ∧
    dictGet fallback_analysis_dict "reasoning" =
      some (AVal.str "Analysis failed due to an error.") := by
  refine ⟨rfl, rfl, rfl, rfl⟩

/-- C3 (counterexample): at a concrete session with two not-yet-asked
questions and a failing next-question oracle, selection returns the
first available question and process_response does not transition to
COMPLETE, refuting the claimed oracle-failure-implies-COMPLETE
behavior. -/
theorem c3_counterexample :
    select_next_question all_fail_oracle session3 = some q2 ∧
    (process_response all_fail_oracle session3 "resp").interview_complete = false ∧
    (process_response all_fail_oracle session3 "resp").current_question = some q2 := by
  refine ⟨rfl, rfl, rfl⟩

/-- C1 (amended): when the analysis oracle fails on a submission that
passed the clarification check, process_response records an Analysis
entry for the current question id whose payload is the five-axis
fallback dict (scores 5 on relevance, completeness, clarity, technical
accuracy and professional tone; no grammar or vocabulary axes exist in
the turn-engine analysis) with reasoning text ending in a period; and
when every oracle call of a session fails, the session started on any
scenario with distinct question ids still reaches COMPLETE with every
question id of the scenario present in the Analysis map. -/
theorem c1_fallback_and_allfail_completion (o : Oracle) (s : Session) (cq : Question)
    (r : String) (scn : Scenario) (rs : List String) (s0 : Session)
    (hcq : s.current_question = some cq)
    (hclar : ∀ cr, o.clarify cq.question r = Except.ok cr → cr.needs_clarification = false)
    (hana : o.analyze cq.question r = Except.error ())
    (hnod : (scn.questions.map (fun q => q.id)).Nodup)
    (hlen : rs.length = scn.questions.length)
    (hstart : start_interview scn = Except.ok s0) :
    dictGet (process_response o s r).evaluation cq.id =
      some ⟨cq.question, r, fallback_analysis_dict⟩ ∧
    (run_steps all_fail_oracle rs s0).interview_complete = true ∧
    ∀ q ∈ scn.questions,
      (dictGet (run_steps all_fail_oracle rs s0).evaluation q.id).isSome = true := by
  have hpart1 : dictGet (process_response o s r).evaluation cq.id =
      some ⟨cq.question, r, fallback_analysis_dict⟩ := by
    rw [process_response_of_unhandled o s _ r
      (process_response_unhandled_continue o s r cq hcq hclar)]
    show dictGet (advance_or_complete o
      (record_analysis o (s.appendMsg ⟨Role.human, r⟩) r cq)).evaluation cq.id = _
    rw [advance_or_complete_evaluation]
    rw [record_analysis_of_analyze_error o _ r cq hana]
    show dictGet (dictSet (s.appendMsg ⟨Role.human, r⟩).evaluation cq.id
      ⟨cq.question, r, fallback_analysis_dict⟩) cq.id = _
    rw [dictGet_dictSet_self]
  refine ⟨hpart1, ?_⟩
  cases hqs : scn.questions with
  | nil =>
    unfold start_interview at hstart
    rw [hqs] at hstart
    cases hstart
  | cons q0 qs =>
    unfold start_interview at hstart
    rw [hqs] at hstart
    simp only [List.head?_cons] at hstart
    injection hstart with hstart
    have hres := run_all_fail_completes qs [] q0 s0 rs
      (by rw [← hstart]; show scn.questions = [] ++ q0 :: qs; rw [hqs]; rfl)
      (by rw [← hstart])
      (by rw [← hstart]; simp)
      (by rw [← hstart]; show (scn.questions.map (fun q => q.id)).Nodup; exact hnod)
      (by intro q hq; cases hq)
      (by rw [hlen, hqs]; rfl)
    refine ⟨hres.1, ?_⟩
    intro q hq
    apply hres.2
    rw [← hstart]
    show q ∈ scn.questions
    rw [hqs]
    exact hq

/-- Witness for C1 at session2 of the two-question scenario with the
all-failing oracle. -/
theorem c1_witness :
    dictGet (process_response all_fail_oracle session2 "resp").evaluation q1.id =
      some ⟨q1.question, "resp", fallback_analysis_dict⟩ ∧
    (run_steps all_fail_oracle ["a", "b"] session2).interview_complete = true := by
  have h := c1_fallback_and_allfail_completion all_fail_oracle session2 q1 "resp"
    two_q_scenario ["a", "b"] session2 rfl (all_fail_clarify_absurd q1 "resp") rfl
    (by decide) (by decide) rfl
  exact ⟨h.1, h.2.1⟩

/-- C3 (amended): with exactly one not-yet-asked question it is selected
for every oracle behavior, hence without an oracle call; when the
next-question oracle call fails and more than one question remains, the
first available question is selected instead of completing; selection
returns none exactly when no question remains; and when no question
remains after analysis while the asked count is still below the total,
process_response transitions to COMPLETE with the closing message
appended. -/
theorem c3_single_and_failure_fallback (o : Oracle) (s : Session) (q0 cq : Question)
    (rest : List Question) (r : String) :
    (available_questions s = [q0] → select_next_question o s = some q0) ∧
    (available_questions s = q0 :: rest → ¬ rest = [] →
      o.next_question s.scenario.title s.scenario.description
          (format_available_questions (available_questions s))
          (format_conversation_history s.conversation_history) = Except.error () →
      select_next_question o s = some q0) ∧
    (select_next_question o s = none ↔ available_questions s = []) ∧
    (s.current_question = some cq →
      (∀ cr, o.clarify cq.question r = Except.ok cr → cr.needs_clarification = false) →
      s.questions_asked.length < s.scenario.questions.length →
      available_questions s = [] →
      (process_response o s r).interview_complete = true ∧
      (process_response o s r).conversation_history =
        s.conversation_history ++ [⟨Role.human, r⟩, ⟨Role.ai, closing_message⟩]) := by
  refine ⟨?_, ?_, ?_, ?_⟩
  · intro h
    exact select_next_question_single o s q0 h
  · intro h hrest hcall
    exact select_next_question_error o s q0 rest h hrest hcall
  · constructor
    · intro hnone
      cases hav : available_questions s with
      | nil => rfl
      | cons a l =>
        have := select_next_question_isSome o s a l hav
        rw [hnone] at this
        simp at this
    · intro hav
      exact select_next_question_empty o s hav
  · intro hcq hclar hlt hav
    have hpr : process_response o s r =
        analyze_and_advance o (s.appendMsg ⟨Role.human, r⟩) r cq :=
      process_response_of_unhandled o s _ r
        (process_response_unhandled_continue o s r cq hcq hclar)
    have hs2q : (record_analysis o (s.appendMsg ⟨Role.human, r⟩) r cq).questions_asked
        = s.questions_asked := rfl
    have hs2sc : (record_analysis o (s.appendMsg ⟨Role.human, r⟩) r cq).scenario
        = s.scenario := rfl
    have hlen : ¬ (record_analysis o (s.appendMsg ⟨Role.human, r⟩) r cq).scenario.questions.length
        ≤ (record_analysis o (s.appendMsg ⟨Role.human, r⟩) r cq).questions_asked.length := by
      rw [hs2q, hs2sc]
      omega
    have hav2 : available_questions (record_analysis o (s.appendMsg ⟨Role.human, r⟩) r cq) = [] := by
      rw [available_questions_congr s _ hs2sc hs2q]
      exact hav
    have hadv : analyze_and_advance o (s.appendMsg ⟨Role.human, r⟩) r cq =
        complete_session (record_analysis o (s.appendMsg ⟨Role.human, r⟩) r cq) :=
      advance_or_complete_none o _ hlen (select_next_question_empty o _ hav2)
    rw [hpr, hadv]
    constructor
    · rfl
    · show (record_analysis o (s.appendMsg ⟨Role.human, r⟩) r cq).conversation_history
        ++ [⟨Role.ai, closing_message⟩] =
        s.conversation_history ++ [⟨Role.human, r⟩, ⟨Role.ai, closing_message⟩]
      show (s.conversation_history ++ [⟨Role.human, r⟩]) ++ [⟨Role.ai, closing_message⟩] =
        s.conversation_history ++ [⟨Role.human, r⟩, ⟨Role.ai, closing_message⟩]
      rw [List.append_assoc]
      rfl

/-- Witness for C3: single-question selection at session2, first-available
fallback at session3 with the failing oracle, selection exhaustion on
session_done, and completion of the duplicate-id session where no
question remains although the asked count is below the total. -/
theorem c3_witness :
    select_next_question all_fail_oracle session2 = some q2 ∧
    select_next_question all_fail_oracle session3 = some q2 ∧
    select_next_question all_fail_oracle session_done = none ∧
    (process_response all_fail_oracle session_dup "resp").interview_complete = true := by
  refine ⟨?_, ?_, ?_, ?_⟩
  · exact (c3_single_and_failure_fallback all_fail_oracle session2 q2 q2 [] "resp").1 (by decide)
  · exact (c3_single_and_failure_fallback all_fail_oracle session3 q2 q2 [q3] "resp").2.1
      (by decide) (by decide) rfl
  · exact (c3_single_and_failure_fallback all_fail_oracle session_done q1 q1 [] "resp").2.2.1.mpr
      (by decide)
  · exact ((c3_single_and_failure_fallback all_fail_oracle session_dup q1 q1 [] "resp").2.2.2
      rfl (by intro cr hcr; cases hcr) (by decide) (by decide)).1

/-- C6 (counterexample): a freshly started two-question session has one
asked question id and zero stored turn records, so the record count does
not equal the asked count at every point of the lifetime. -/
theorem c6_counterexample :
    (start_interview_session two_q_scenario).toOption.map
        (fun p => (p.1.length, p.2.questions_asked.length)) = some (0, 1) ∧
    ¬ (0 : Nat) = 1 := by
  refine ⟨rfl, by decide⟩

/-- C6 (amended): no already-asked question id is ever selected again;
across one turn the asked list either stays unchanged or grows by
exactly one identifier not asked before, staying duplicate-free; and at
the handler level each submission appends at most one turn record whose
question id was not stored before, keeping the stored record ids
distinct — so the record count equals the number of distinct answered
question ids, the asked set exceeding it by the pending current
question between asking and answering. -/
theorem c6_no_reask_and_distinct_records (o : Oracle) (s : Session) (q : Question)
    (r : String) (scn : Scenario) (stored st' : List StoredResponse) :
    (select_next_question o s = some q → ¬ q.id ∈ s.questions_asked) ∧
    (s.questions_asked.Nodup →
      ((process_response o s r).questions_asked = s.questions_asked ∨
       ∃ nid, (process_response o s r).questions_asked = s.questions_asked ++ [nid] ∧
         ¬ nid ∈ s.questions_asked) ∧
      (process_response o s r).questions_asked.Nodup) ∧
    ((stored.map (fun t => t.question_id)).Nodup →
      handler_stored (handler_process_response o scn stored r) = some st' →
      (st'.map (fun t => t.question_id)).Nodup ∧
      stored.length ≤ st'.length ∧ st'.length ≤ stored.length + 1) := by
  refine ⟨?_, ?_, ?_⟩
  · intro hsel
    exact mem_available_not_asked s q (select_next_question_mem o s q hsel)
  · intro hnod
    have hshape : (process_response o s r).questions_asked = s.questions_asked ∨
        ∃ nid, (process_response o s r).questions_asked = s.questions_asked ++ [nid] ∧
          ¬ nid ∈ s.questions_asked := by
      cases hcq : s.current_question with
      | none =>
        rw [process_response_no_current o s r hcq]
        exact Or.inl rfl
      | some cq =>
        have hcontinue : ∀ hclar : (∀ cr, o.clarify cq.question r = Except.ok cr →
            cr.needs_clarification = false),
            (process_response o s r).questions_asked = s.questions_asked ∨
            ∃ nid, (process_response o s r).questions_asked = s.questions_asked ++ [nid] ∧
              ¬ nid ∈ s.questions_asked := by
          intro hclar
          rw [process_response_of_unhandled o s _ r
            (process_response_unhandled_continue o s r cq hcq hclar)]
          rcases analyze_and_advance_asked o (s.appendMsg ⟨Role.human, r⟩) r cq with
            hsame | ⟨nq, hsel, heq⟩
          · exact Or.inl hsame
          · refine Or.inr ⟨nq.id, heq, ?_⟩
            exact mem_available_not_asked
              (record_analysis o (s.appendMsg ⟨Role.human, r⟩) r cq) nq
              (select_next_question_mem o _ nq hsel)
        cases hc : o.clarify cq.question r with
        | ok cr =>
          by_cases hnc : cr.needs_clarification = true
          · rw [process_response_of_unhandled o s _ r
              (process_response_unhandled_clar o s r cq cr hcq hc hnc)]
            exact Or.inl rfl
          · refine hcontinue ?_
            intro cr' h'
            rw [hc] at h'
            injection h' with h'
            rw [← h']
            revert hnc
            cases cr.needs_clarification <;> simp
        | error e =>
          refine hcontinue ?_
          intro cr' h'
          rw [hc] at h'
          cases h'
    refine ⟨hshape, ?_⟩
    rcases hshape with hsame | ⟨nid, heq, hmem⟩
    · rw [hsame]; exact hnod
    · rw [heq]
      exact nodup_append_singleton _ nid hnod hmem
  · intro hnods hsome
    rcases handler_stored_shape o scn stored r st' hsome with h | ⟨cq, heq, hmem⟩
    · rw [h]
      exact ⟨hnods, Nat.le_refl _, Nat.le_succ _⟩
    · rw [heq]
      refine ⟨?_, ?_, ?_⟩
      · rw [List.map_append]
        exact nodup_append_singleton _ cq.id hnods (by simpa using hmem)
      · simp
      · simp

/-- Witness for C6: the selected question q2 was not asked before in
session2; a turn on session2 keeps the asked ids duplicate-free; and the
handler storage after one submission carries distinct question ids. -/
theorem c6_witness :
    ¬ q2.id ∈ session2.questions_asked ∧
    (process_response all_fail_oracle session2 "answer").questions_asked.Nodup ∧
    (([⟨"q1", "answer"⟩] : List StoredResponse).map (fun t => t.question_id)).Nodup := by
  refine ⟨?_, ?_, ?_⟩
  · exact (c6_no_reask_and_distinct_records all_fail_oracle session2 q2 "answer"
      two_q_scenario [] []).1 rfl
  · exact ((c6_no_reask_and_distinct_records all_fail_oracle session2 q2 "answer"
      two_q_scenario [] []).2.1 (by decide)).2
  · exact ((c6_no_reask_and_distinct_records clarifying_oracle session2 q2 "answer"
      two_q_scenario [] [⟨"q1", "answer"⟩]).2.2 (by decide) rfl).1

/-- C7 (counterexample): with budget 5 and the sum length as reduce
oracle, the document pair 5, 5 is collapsed to itself (two documents,
no strict shrinkage), the capped loop fails with capExceeded instead of
producing a final summary, and a single leading document above the
budget fails immediately with the split ValueError, not at the cap. -/
theorem c7_counterexample :
    collapse_summaries length_function 5 [5, 5] = Except.ok [5, 5] ∧
    collapse_loop length_function 5 10 [5, 5] = Except.error SummError.capExceeded ∧
    collapse_loop length_function 5 10 [6] = Except.error SummError.singleDocTooLong := by
  refine ⟨rfl, rfl, rfl⟩

/-- C5: get_next_conversation_stage walks the declared stage order: the
first stage from none, the immediately following stage from any
non-final stage, none from the last stage or an unknown stage name, and
iterating from none enumerates every stage exactly once in declared
order. -/
theorem c5_next_stage_enumeration (store : List NScenario) (sid : String) (sc : NScenario)
    (flow : List (String × StageData)) (i : Nat) (cur : String)
    (hfind : n_get_scenario_by_id store sid = some sc)
    (hfmt : is_new_format_scenario sc = true)
    (hflow : sc.conversation_flow = some flow)
    (hne : ¬ flow = [])
    (hnod : (flow.map (fun p => p.1)).Nodup) :
    (∀ h0 : 0 < (flow.map (fun p => p.1)).length,
      get_next_conversation_stage store sid none =
        some (make_stage_question flow ((flow.map (fun p => p.1)).get ⟨0, h0⟩))) ∧
    (∀ h : i + 1 < (flow.map (fun p => p.1)).length,
      get_next_conversation_stage store sid
          (some ((flow.map (fun p => p.1)).get ⟨i, Nat.lt_of_succ_lt h⟩)) =
        some (make_stage_question flow ((flow.map (fun p => p.1)).get ⟨i + 1, h⟩))) ∧
    (∀ h : i < (flow.map (fun p => p.1)).length,
      i + 1 = (flow.map (fun p => p.1)).length →
      get_next_conversation_stage store sid
          (some ((flow.map (fun p => p.1)).get ⟨i, h⟩)) = none) ∧
    (¬ cur ∈ flow.map (fun p => p.1) →
      get_next_conversation_stage store sid (some cur) = none) ∧
    stage_walk store sid flow.length none = flow.map (fun p => p.1) := by
  refine ⟨?_, ?_, ?_, ?_, ?_⟩
  · intro h0
    rw [gns_none_eq store sid sc flow hfind hfmt hflow hne]
    rw [head?_eq_get_zero (flow.map (fun p => p.1)) h0]
    rfl
  · intro h
    exact gns_step store sid sc flow hfind hfmt hflow hne hnod i h
  · intro h hlast
    exact gns_last store sid sc flow hfind hfmt hflow hne hnod i h hlast
  · intro hcur
    rw [gns_some_eq store sid sc flow hfind hfmt hflow hne cur]
    rw [list_index_not_mem _ cur hcur]
  · have hlen : flow.length = (flow.map (fun p => p.1)).length := by
      rw [List.length_map]
    rcases hpos : flow.map (fun p => p.1) with _ | ⟨a, t⟩
    · exact absurd (List.map_eq_nil_iff.mp hpos) hne
    · have h0 : 0 < (flow.map (fun p => p.1)).length := by rw [hpos]; simp
      have hm : ∃ m, flow.length = m + 1 := by
        refine ⟨(flow.map (fun p => p.1)).length - 1, ?_⟩
        rw [hlen, hpos]
        simp
      obtain ⟨m, hmeq⟩ := hm
      rw [hmeq]
      unfold stage_walk
      rw [gns_none_eq store sid sc flow hfind hfmt hflow hne]
      rw [head?_eq_get_zero (flow.map (fun p => p.1)) h0]
      show ((flow.map (fun p => p.1)).get ⟨0, h0⟩) ::
        stage_walk store sid m (some ((flow.map (fun p => p.1)).get ⟨0, h0⟩)) = _
      rw [stage_walk_drop store sid sc flow hfind hfmt hflow hne hnod m 0 h0
        (by rw [hlen] at hmeq; omega)]
      rw [List.get_eq_getElem]
      rw [← List.drop_eq_getElem_cons h0]
      simp

/-- Witness for C5 on the two-stage demo scenario: the walk from none
enumerates both stages in order, and an unknown stage yields none. -/
theorem c5_witness :
    stage_walk demo_store "ns1" demo_flow.length none = demo_flow.map (fun p => p.1) ∧
    get_next_conversation_stage demo_store "ns1" (some "zzz") = none := by
  have h := c5_next_stage_enumeration demo_store "ns1" demo_nscenario demo_flow 0 "zzz"
    rfl rfl rfl (by decide) (by decide)
  exact ⟨h.2.2.2.2, h.2.2.2.1 (by decide)⟩

/-- C7 (amended): the collapse loop runs under the 10-round cap. A
collapse round never increases the document count (each sub-group is
nonempty and becomes one document) but need not strictly decrease it —
singleton groups reproduce themselves; an input that never shrinks under
collapse exhausts the cap and fails hard with capExceeded instead of
looping forever; and a leading document alone exceeding the budget makes
the round itself fail immediately with the split ValueError. -/
theorem c7_collapse_cap (reduce : List Nat → Nat) (budget : Nat)
    (docs out : List Nat) (fuel : Nat) (d : Nat) (ds : List Nat) :
    (¬ docs = [] → collapse_summaries reduce budget docs = Except.ok out →
       out.length ≤ docs.length) ∧
    (collapse_summaries reduce budget docs = Except.ok docs →
       budget < length_function docs →
       collapse_loop reduce budget fuel docs = Except.error SummError.capExceeded) ∧
    (budget < d → collapse_summaries reduce budget (d :: ds) =
       Except.error SummError.singleDocTooLong) := by
  refine ⟨?_, ?_, ?_⟩
  · intro hne hok
    unfold collapse_summaries at hok
    cases hs : split_list_of_docs budget docs with
    | error e => rw [hs] at hok; cases hok
    | ok gs =>
      rw [hs] at hok
      simp only [] at hok
      injection hok with hok
      rw [← hok, List.length_map]
      have hsgo : split_go budget docs [] [] = Except.ok gs := hs
      have hjoin := split_go_join budget docs [] [] gs hsgo
      simp only [List.flatten_nil, List.nil_append] at hjoin
      have hnn := split_go_ne_nil budget docs [] [] gs
        (by intro g hg; cases hg) (fun _ => hne) hsgo
      have hle := length_le_join_length gs hnn
      rw [hjoin] at hle
      exact hle
  · intro hfix hlt
    induction fuel with
    | zero =>
      unfold collapse_loop
      rw [if_neg (by omega)]
    | succ n ih =>
      unfold collapse_loop
      rw [if_neg (by omega), hfix]
      exact ih
  · intro hd
    have hsplit : split_list_of_docs budget (d :: ds) =
        Except.error SummError.singleDocTooLong := by
      unfold split_list_of_docs split_go
      simp only []
      rw [if_pos (by simp only [length_function, List.nil_append, List.sum_cons,
        List.sum_nil]; omega)]
      rw [if_pos (by simp)]
    unfold collapse_summaries
    rw [hsplit]

/-- Witness for C7 at budget 5: the 5, 5 round does not increase the
count, the capped loop on the non-shrinking pair fails with capExceeded,
and the oversized single document 6 fails with the split error. -/
theorem c7_witness :
    ([5, 5] : List Nat).length ≤ ([5, 5] : List Nat).length ∧
    collapse_loop length_function 5 10 [5, 5] = Except.error SummError.capExceeded ∧
    collapse_summaries length_function 5 [6] = Except.error SummError.singleDocTooLong := by
  have h := c7_collapse_cap length_function 5 [5, 5] [5, 5] 10 6 []
  exact ⟨h.1 (by decide) rfl, h.2.1 rfl (by decide), h.2.2 (by decide)⟩

end Recruitment
